import Mathlib

/-!
Verification development for the multi_recorder capture-process orchestrator.

The definitions below are a shallow embedding of the Python sources
(`recorder.py`, `gui.py`, `main.py`): pure functions are translated directly,
stateful loops become explicit state passing over input traces, and external
effects (subprocess liveness, directory creation, stream reads) are modelled
as explicit outcome parameters.  Theorems about the embedding follow the
definitions.
-/

namespace MultiRecorder

/-! ## Filename sanitization (`recorder.py`, `sanitize_filename`, lines 10-15)

The Python function first substitutes the empty string for every occurrence
of the regex pattern  backslash-bracket dot-star-question backslash-bracket
whitespace-star  (a bracket pair matched non-greedily, with `.` not crossing
a newline, plus trailing whitespace) anywhere in the string, then replaces
every character of the invalid set with an underscore, then strips
surrounding whitespace.  Whitespace is modelled as the ASCII whitespace
characters. -/

def isPySpace (c : Char) : Bool :=
  c == ' ' || c == '\t' || c == '\n' || c == '\r' || c == '\x0b' || c == '\x0c'

def invalidFilenameChar (c : Char) : Bool :=
  c == '\\' || c == '/' || c == '*' || c == '?' || c == ':' || c == '"' ||
  c == '<' || c == '>' || c == '|'

/-- Scan for the first `]` reachable without crossing a newline (the
non-greedy `.*?\]` part of the removal pattern); returns the remainder
after that `]`. -/
def findClose : List Char → Option (List Char)
  | [] => none
  | c :: rest =>
    if c == ']' then some rest
    else if c == '\n' then none
    else findClose rest

/-- Fuelled scanner implementing `re.sub` of the bracket pattern with the
empty string: at each `[` that has a reachable `]`, drop through the `]` and
any following whitespace, then continue after the match; otherwise keep the
character and move on.  Fuel bounded by the list length always suffices. -/
def removeBracketsFuel : Nat → List Char → List Char
  | _, [] => []
  | 0, l => l
  | fuel + 1, c :: rest =>
    if c == '[' then
      match findClose rest with
      | some rem => removeBracketsFuel fuel (List.dropWhile isPySpace rem)
      | none => '[' :: removeBracketsFuel fuel rest
    else
      c :: removeBracketsFuel fuel rest

def removeBrackets (l : List Char) : List Char :=
  removeBracketsFuel l.length l

/-- The second substitution: every character of the invalid set becomes
an underscore. -/
def replaceInvalid (l : List Char) : List Char :=
  l.map (fun c => if invalidFilenameChar c then '_' else c)

/-- Python `str.strip()`: remove leading and trailing whitespace. -/
def pyStrip (l : List Char) : List Char :=
  ((l.dropWhile isPySpace).reverse.dropWhile isPySpace).reverse

def sanitize_filename (s : String) : String :=
  String.mk (pyStrip (replaceInvalid (removeBrackets s.data)))

/-- Variant following the specification words for the refinement comparison:
the spec describes the first step as stripping only a LEADING bracketed
prefix, whereas the code removes bracket pairs anywhere in the string. -/
def stripLeadingBracket (l : List Char) : List Char :=
  match l with
  | '[' :: rest =>
    match findClose rest with
    | some rem => List.dropWhile isPySpace rem
    | none => l
  | _ => l

def sanitizeFilenameLeadingOnly (s : String) : String :=
  String.mk (pyStrip (replaceInvalid (stripLeadingBracket s.data)))

/-! ## Shutdown protocol (`recorder.py`, `Recorder.stop`, lines 95-128)

For each `(process, task_name)` pair the code checks liveness via psutil,
calls `p.terminate()`, waits up to 3 seconds, and escalates to `p.kill()`
followed by an unbounded `p.wait()`.  The per-record behaviour depends only
on how the operating-system process reacts, modelled by `ProcState`.
`StopAction` is the alphabet of observable process operations; it includes
`writeQuit` (the spec's quit byte written to the standard-input pipe) so
that its absence from the code's traces is expressible. -/

inductive ProcState
  | gone
  | stoppedAlready
  | aliveGraceful
  | aliveStubborn
deriving DecidableEq

inductive StopAction
  | writeQuit
  | terminate
  | waitTimeout (secs : Nat)
  | kill
  | waitBlocking
deriving DecidableEq

/-- Trace of process operations performed by the body of the `for` loop in
`Recorder.stop` for one record, by process behaviour:
`gone` raises `psutil.NoSuchProcess` at the lookup (logged only);
`stoppedAlready` fails the `is_running` check (logged only);
`aliveGraceful` is terminated and exits within the 3 second wait;
`aliveStubborn` survives the wait (`psutil.TimeoutExpired`) and is killed,
followed by a blocking wait. -/
def stopActionsFor : ProcState → List StopAction
  | .gone => []
  | .stoppedAlready => []
  | .aliveGraceful => [.terminate, .waitTimeout 3]
  | .aliveStubborn => [.terminate, .waitTimeout 3, .kill, .waitBlocking]

structure RecorderState where
  processes : List (ProcState × String)
deriving DecidableEq

def stopActionsAll (l : List (ProcState × String)) : List StopAction :=
  l.foldr (fun p acc => stopActionsFor p.1 ++ acc) []

/-- `Recorder.stop`: iterate over `self.processes` performing the per-record
shutdown protocol, then set `self.processes = []`.  Returns the new recorder
state and the concatenated trace of process operations. -/
def Recorder.stop (r : RecorderState) : RecorderState × List StopAction :=
  ({ processes := [] }, stopActionsAll r.processes)

/-! ## Launching (`recorder.py`, `Recorder.start`, lines 45-89, and
`gui.py`, `MainWindow.toggle_recording`, lines 402-422)

Each of the three task loops wraps its body in `try/except`: a failing task
is logged and skipped, a successful one appends one record via
`_launch_process`.  Whether any step of the body raises is abstracted in the
task's `launchFails` flag.  The caller in the GUI reports failure exactly
when `get_active_processes()` is empty. -/

structure CaptureTask where
  name : String
  launchFails : Bool
deriving DecidableEq

structure ProcessRecord where
  taskName : String
deriving DecidableEq

structure RecorderTasks where
  screen_tasks : List CaptureTask
  webcam_tasks : List CaptureTask
  audio_tasks : List CaptureTask
deriving DecidableEq

/-- One `for task in ...: try ... except ...` loop of `Recorder.start`. -/
def launchLoop : List CaptureTask → List ProcessRecord → List ProcessRecord
  | [], acc => acc
  | t :: ts, acc =>
    launchLoop ts (if t.launchFails then acc else acc ++ [{ taskName := t.name }])

def Recorder.start (r : RecorderTasks) : List ProcessRecord :=
  launchLoop r.audio_tasks (launchLoop r.webcam_tasks (launchLoop r.screen_tasks []))

/-- `toggle_recording` shows the critical "Recording Failed" dialog exactly
when the list of active processes is empty. -/
def reportsStartFailure (records : List ProcessRecord) : Bool :=
  records.isEmpty

/-! ## Process health monitor (`gui.py`, `ProcessMonitorThread.run`,
lines 124-134)

Every iteration of the `while self.running` loop polls each tracked process
and emits `(pid, status)`: `running` when `poll()` is `None`, otherwise
`exited_ok` or `exited_error` by the return code.  The loop keeps no
per-record terminal marker, so the process list seen by `n` iterations is
modelled as a fixed snapshot (an exited process stays exited). -/

inductive ProcStatus
  | running
  | exited_ok
  | exited_error
deriving DecidableEq

structure ProcView where
  pid : Nat
  poll : Option Int
deriving DecidableEq

def pollStatus (p : ProcView) : ProcStatus :=
  match p.poll with
  | none => ProcStatus.running
  | some code => if code = 0 then ProcStatus.exited_ok else ProcStatus.exited_error

def monitorIteration (ps : List ProcView) : List (Nat × ProcStatus) :=
  ps.map (fun p => (p.pid, pollStatus p))

/-- Emissions of `n` iterations of the monitor loop over a fixed snapshot. -/
def monitorRun (ps : List ProcView) : Nat → List (Nat × ProcStatus)
  | 0 => []
  | n + 1 => monitorIteration ps ++ monitorRun ps n

def isTerminal : ProcStatus → Bool
  | ProcStatus.running => false
  | ProcStatus.exited_ok => true
  | ProcStatus.exited_error => true

def terminalEmissions (pid : Nat) (l : List (Nat × ProcStatus)) : Nat :=
  (l.filter (fun e => decide (e.1 = pid) && isTerminal e.2)).length

/-! ## Log readers (`gui.py`, `LogReaderThread.run`, lines 99-110)

The stream is wrapped in a text wrapper with encoding "utf-8" and the
errors policy "ignore": ill-formed byte sequences are DROPPED.  The decoder below
is parameterised by the char sequence emitted per decoding error, so the
code's policy (`utf8DecodeIgnore`, empty) and the spec's substitution policy
(`utf8DecodeReplace`, U+FFFD) are the two instances. -/

def isContByte (b : Nat) : Bool :=
  0x80 ≤ b && b ≤ 0xBF

/-- Admissible second byte of a multi-byte sequence given its lead byte
(excludes overlong encodings, surrogates and values above U+10FFFF). -/
def contTwoOk (lead b : Nat) : Bool :=
  if lead = 0xE0 then 0xA0 ≤ b && b ≤ 0xBF
  else if lead = 0xED then 0x80 ≤ b && b ≤ 0x9F
  else if lead = 0xF0 then 0x90 ≤ b && b ≤ 0xBF
  else if lead = 0xF4 then 0x80 ≤ b && b ≤ 0x8F
  else isContByte b

def utf8DecodeFuel (errSub : List Char) : Nat → List Nat → List Char
  | _, [] => []
  | 0, _ => []
  | fuel + 1, b :: rest =>
    if b < 0x80 then
      Char.ofNat b :: utf8DecodeFuel errSub fuel rest
    else if b < 0xC2 then
      errSub ++ utf8DecodeFuel errSub fuel rest
    else if b < 0xE0 then
      match rest with
      | b1 :: rest1 =>
        if isContByte b1 then
          Char.ofNat ((b - 0xC0) * 64 + (b1 - 0x80)) :: utf8DecodeFuel errSub fuel rest1
        else errSub ++ utf8DecodeFuel errSub fuel rest
      | [] => errSub
    else if b < 0xF0 then
      match rest with
      | b1 :: b2 :: rest2 =>
        if contTwoOk b b1 && isContByte b2 then
          Char.ofNat ((b - 0xE0) * 4096 + (b1 - 0x80) * 64 + (b2 - 0x80)) ::
            utf8DecodeFuel errSub fuel rest2
        else errSub ++ utf8DecodeFuel errSub fuel rest
      | _ => errSub
    else if b < 0xF5 then
      match rest with
      | b1 :: b2 :: b3 :: rest3 =>
        if contTwoOk b b1 && isContByte b2 && isContByte b3 then
          Char.ofNat ((b - 0xF0) * 262144 + (b1 - 0x80) * 4096 +
              (b2 - 0x80) * 64 + (b3 - 0x80)) :: utf8DecodeFuel errSub fuel rest3
        else errSub ++ utf8DecodeFuel errSub fuel rest
      | _ => errSub
    else
      errSub ++ utf8DecodeFuel errSub fuel rest

/-- Decoder entry point: fuel bounded by the byte-list length always
suffices, since every step consumes at least one byte. -/
def utf8DecodeWith (errSub : List Char) (l : List Nat) : List Char :=
  utf8DecodeFuel errSub l.length l

/-- The code's decoding: `errors='ignore'`, invalid sequences deleted. -/
def utf8DecodeIgnore : List Nat → List Char :=
  utf8DecodeWith []

/-- The spec-worded decoding for the refinement comparison: invalid
sequences replaced by U+FFFD. -/
def utf8DecodeReplace : List Nat → List Char :=
  utf8DecodeWith [Char.ofNat 0xFFFD]

/-- One `readline()` result: a chunk of raw bytes for one line, or a raised
exception. -/
inductive ReadEvent
  | chunk (bytes : List Nat)
  | readError
deriving DecidableEq

/-- Body of the reader loop: decode a line (empty means end of stream), or
propagate the exception to the `except` clause. -/
def readOnce : ReadEvent → Except Unit (Option (List Char))
  | ReadEvent.chunk bs =>
    let line := utf8DecodeIgnore bs
    Except.ok (if line.isEmpty then none else some line)
  | ReadEvent.readError => Except.error ()

/-- `LogReaderThread.run`: emit each non-empty decoded line as it arrives;
an empty line (end of stream) or an exception breaks the loop — the
exception is swallowed, never re-raised. -/
def logReaderRun : List ReadEvent → List (List Char)
  | [] => []
  | e :: rest =>
    match readOnce e with
    | Except.ok (some line) => line :: logReaderRun rest
    | Except.ok none => []
    | Except.error _ => []

def eventLine : ReadEvent → Option (List Char)
  | ReadEvent.chunk bs => some (utf8DecodeIgnore bs)
  | ReadEvent.readError => none

def isGoodEvent : ReadEvent → Bool
  | ReadEvent.chunk bs => !(utf8DecodeIgnore bs).isEmpty
  | ReadEvent.readError => false

/-! ## Resource guard (`gui.py`, `ResourceMonitorThread`, lines 139-171)

Thresholds: `disk_threshold_gb=1.0` and `ram_threshold_gb=0.5` scaled by
`1024**3` bytes (both exact integers).  Each iteration checks a resource
only while its `_warning_sent` flag is unset and latches the flag on the
first breach. -/

def diskThresholdBytes : Nat := 1024 ^ 3

def ramThresholdBytes : Nat := 1024 ^ 3 / 2

structure ResourceSample where
  diskFree : Nat
  ramAvailable : Nat
deriving DecidableEq

structure GuardState where
  diskWarningSent : Bool
  ramWarningSent : Bool
deriving DecidableEq

inductive ResourceWarning
  | lowDisk
  | lowRam
deriving DecidableEq

def diskBreach (s : ResourceSample) : Bool :=
  decide (s.diskFree < diskThresholdBytes)

def ramBreach (s : ResourceSample) : Bool :=
  decide (s.ramAvailable < ramThresholdBytes)

def guardStepDisk (st : GuardState) (s : ResourceSample) :
    GuardState × List ResourceWarning :=
  if st.diskWarningSent then (st, [])
  else if diskBreach s then ({ st with diskWarningSent := true }, [ResourceWarning.lowDisk])
  else (st, [])

def guardStepRam (st : GuardState) (s : ResourceSample) :
    GuardState × List ResourceWarning :=
  if st.ramWarningSent then (st, [])
  else if ramBreach s then ({ st with ramWarningSent := true }, [ResourceWarning.lowRam])
  else (st, [])

/-- One iteration of the `while self.running` loop: disk check then RAM
check, each gated by its latch. -/
def guardStep (st : GuardState) (s : ResourceSample) :
    GuardState × List ResourceWarning :=
  ((guardStepRam (guardStepDisk st s).1 s).1,
    (guardStepDisk st s).2 ++ (guardStepRam (guardStepDisk st s).1 s).2)

/-- The guard loop over a trace of polled samples. -/
def guardRun (st : GuardState) : List ResourceSample → List ResourceWarning
  | [] => []
  | s :: rest => (guardStep st s).2 ++ guardRun (guardStep st s).1 rest

def countWarning (w : ResourceWarning) (l : List ResourceWarning) : Nat :=
  (l.filter (fun x => decide (x = w))).length

/-! ## Area geometry (`gui.py`, `adjust_rect_for_ffmpeg`, lines 13-18) -/

structure QRect where
  x : Int
  y : Int
  w : Int
  h : Int
deriving DecidableEq

def adjust_rect_for_ffmpeg (r : QRect) : QRect :=
  { x := r.x, y := r.y, w := r.w - r.w % 2, h := r.h - r.h % 2 }

/-! ## Project directory (`recorder.py`, `Recorder._create_project_directory`,
lines 33-43)

`os.makedirs(project_path, exist_ok=True)` succeeds when the directory is
created or already exists and raises `OSError` otherwise; the outcome is
modelled explicitly.  On `OSError` the function logs and returns the base
path instead of raising. -/

inductive MkdirResult
  | created
  | alreadyExists
  | osError
deriving DecidableEq

/-- Whether `os.makedirs(..., exist_ok=True)` returns without raising. -/
def makedirsExistOk : MkdirResult → Bool
  | MkdirResult.created => true
  | MkdirResult.alreadyExists => true
  | MkdirResult.osError => false

def projectDirName (timestamp : String) : String :=
  "Multi_Recorder_" ++ timestamp

def joinPath (a b : String) : String :=
  a ++ "/" ++ b

def create_project_directory (basePath timestamp : String) (mk : MkdirResult) : String :=
  if makedirsExistOk mk then joinPath basePath (projectDirName timestamp)
  else basePath

/-! ## Theorems -/

/-- Helper: no per-record shutdown trace contains the quit-byte write. -/
theorem writeQuit_not_in_stopActionsFor (st : ProcState) :
    StopAction.writeQuit ∉ stopActionsFor st := by
  cases st <;> decide

/-- Helper: the quit-byte write never occurs in a full shutdown trace. -/
theorem writeQuit_not_in_stopActionsAll (l : List (ProcState × String)) :
    StopAction.writeQuit ∉ stopActionsAll l := by
  induction l with
  | nil => simp [stopActionsAll]
  | cons p ps ih =>
    simp only [stopActionsAll, List.foldr_cons, List.mem_append]
    rintro (h | h)
    · exact writeQuit_not_in_stopActionsFor p.1 h
    · exact ih h

/-- Helper: an action of a member record's trace occurs in the full trace. -/
theorem mem_stopActionsAll_of_mem {l : List (ProcState × String)}
    {p : ProcState × String} (hp : p ∈ l) {a : StopAction}
    (ha : a ∈ stopActionsFor p.1) : a ∈ stopActionsAll l := by
  induction l with
  | nil => cases hp
  | cons q qs ih =>
    simp only [stopActionsAll, List.foldr_cons, List.mem_append]
    rcases List.mem_cons.mp hp with h | h
    · exact Or.inl (h ▸ ha)
    · exact Or.inr (ih h)

/-- C2: the claim states the graceful-quit request is a single quit byte
written to the process's standard-input pipe.  It is not: for a live record
the code's trace is `terminate()` followed by the bounded wait, and no
stdin write occurs anywhere in the shutdown trace. -/
theorem stop_writes_no_quit_byte_counterexample :
    (Recorder.stop { processes := [(ProcState.aliveGraceful, "Audio Mic")] }).2 =
      [StopAction.terminate, StopAction.waitTimeout 3] ∧
    StopAction.writeQuit ∉
      (Recorder.stop { processes := [(ProcState.aliveGraceful, "Audio Mic")] }).2 := by
  constructor
  · rfl
  · decide

/-- C2 (amended): for every record still believed alive at shutdown, the
graceful-quit request made by `stop()` is psutil's `terminate()` (a polite
termination signal), issued before the timeout-bounded wait begins; no quit
byte is ever written to the process's standard input. -/
theorem stop_graceful_is_signal (r : RecorderState) (st : ProcState) (nm : String)
    (hmem : (st, nm) ∈ r.processes)
    (halive : st = ProcState.aliveGraceful ∨ st = ProcState.aliveStubborn) :
    StopAction.writeQuit ∉ (Recorder.stop r).2 ∧
    StopAction.terminate ∈ (Recorder.stop r).2 ∧
    (∃ rest, stopActionsFor st = StopAction.terminate :: StopAction.waitTimeout 3 :: rest) := by
  refine ⟨writeQuit_not_in_stopActionsAll r.processes, ?_, ?_⟩
  · refine mem_stopActionsAll_of_mem hmem ?_
    rcases halive with h | h <;> subst h <;> simp [stopActionsFor]
  · rcases halive with h | h <;> subst h
    · exact ⟨[], rfl⟩
    · exact ⟨[StopAction.kill, StopAction.waitBlocking], rfl⟩

/-- Witness for `stop_graceful_is_signal` at a concrete session. -/
theorem stop_graceful_is_signal_witness :
    StopAction.writeQuit ∉
      (Recorder.stop { processes := [(ProcState.aliveStubborn, "Screen 0")] }).2 ∧
    StopAction.terminate ∈
      (Recorder.stop { processes := [(ProcState.aliveStubborn, "Screen 0")] }).2 ∧
    (∃ rest, stopActionsFor ProcState.aliveStubborn =
      StopAction.terminate :: StopAction.waitTimeout 3 :: rest) :=
  stop_graceful_is_signal { processes := [(ProcState.aliveStubborn, "Screen 0")] }
    ProcState.aliveStubborn "Screen 0" (List.mem_singleton.mpr rfl) (Or.inr rfl)

/-- C5: every wait issued by `stop()` before escalation is bounded by the
3-second timeout; a record that is still alive after the timeout is
forcefully killed and then waited on without bound; and after all records
are processed the record collection is empty. -/
theorem stop_bounded_escalation :
    (∀ r : RecorderState, (Recorder.stop r).1.processes = []) ∧
    (∀ (st : ProcState) (n : Nat),
      StopAction.waitTimeout n ∈ stopActionsFor st → n = 3) ∧
    stopActionsFor ProcState.aliveStubborn =
      [StopAction.terminate, StopAction.waitTimeout 3,
        StopAction.kill, StopAction.waitBlocking] := by
  refine ⟨fun r => rfl, ?_, rfl⟩
  intro st n h
  cases st <;> simp [stopActionsFor] at h <;> omega

/-- Witness for `stop_bounded_escalation` at a concrete session. -/
theorem stop_bounded_escalation_witness :
    (Recorder.stop { processes := [(ProcState.aliveStubborn, "Webcam 0")] }).1.processes = [] ∧
    (3 : Nat) = 3 :=
  ⟨stop_bounded_escalation.1 { processes := [(ProcState.aliveStubborn, "Webcam 0")] },
    stop_bounded_escalation.2.1 ProcState.aliveStubborn 3 (by decide)⟩

/-- C6: `stop()` is idempotent — a second call, and a call on a session
with an empty record collection, performs no process operation and leaves
the (empty) record collection unchanged. -/
theorem stop_idempotent (r : RecorderState) :
    Recorder.stop (Recorder.stop r).1 = ((Recorder.stop r).1, []) ∧
    Recorder.stop { processes := [] } = ({ processes := [] }, []) :=
  ⟨rfl, rfl⟩

/-- C9: `adjust_rect_for_ffmpeg` keeps the position, truncates an odd width
or height to the nearest smaller even value, leaves even dimensions
unchanged, and maps the 101 by 51 selection to 100 by 50. -/
theorem adjust_rect_normalizes (r : QRect) :
    (adjust_rect_for_ffmpeg r).x = r.x ∧
    (adjust_rect_for_ffmpeg r).y = r.y ∧
    (adjust_rect_for_ffmpeg r).w = (if r.w % 2 = 0 then r.w else r.w - 1) ∧
    (adjust_rect_for_ffmpeg r).h = (if r.h % 2 = 0 then r.h else r.h - 1) ∧
    adjust_rect_for_ffmpeg { x := 0, y := 0, w := 101, h := 51 } =
      { x := 0, y := 0, w := 100, h := 50 } := by
  refine ⟨rfl, rfl, ?_, ?_, by decide⟩
  · show r.w - r.w % 2 = _
    rcases Int.emod_two_eq_zero_or_one r.w with h | h <;> rw [h] <;> simp
  · show r.h - r.h % 2 = _
    rcases Int.emod_two_eq_zero_or_one r.h with h | h <;> rw [h] <;> simp

/-- C10: `_create_project_directory` never raises: whenever directory
creation does not fail with an OS error (including the already-exists case,
tolerated by `exist_ok=True`) it returns the timestamped project path, and
on an OS error it falls back to the base directory itself. -/
theorem create_project_directory_total (basePath timestamp : String) (mk : MkdirResult) :
    (mk ≠ MkdirResult.osError →
      create_project_directory basePath timestamp mk =
        joinPath basePath (projectDirName timestamp)) ∧
    create_project_directory basePath timestamp MkdirResult.alreadyExists =
      joinPath basePath (projectDirName timestamp) ∧
    create_project_directory basePath timestamp MkdirResult.osError = basePath := by
  refine ⟨?_, rfl, rfl⟩
  intro h
  cases mk
  · rfl
  · rfl
  · exact absurd rfl h

/-- Witness for `create_project_directory_total` at a concrete base path. -/
theorem create_project_directory_total_witness :
    create_project_directory "/home/user/Videos" "2026-10-12_00-00-00" MkdirResult.created =
      joinPath "/home/user/Videos" (projectDirName "2026-10-12_00-00-00") :=
  (create_project_directory_total "/home/user/Videos" "2026-10-12_00-00-00"
    MkdirResult.created).1 (by decide)

/-- Helper: membership survives `dropWhile` removal. -/
theorem mem_of_mem_dropWhile {α : Type} {p : α → Bool} {l : List α} {c : α}
    (h : c ∈ l.dropWhile p) : c ∈ l := by
  induction l with
  | nil => simp at h
  | cons a as ih =>
    rw [List.dropWhile_cons] at h
    cases hpa : p a
    · rw [hpa] at h
      simpa using h
    · rw [hpa] at h
      simp only [if_pos] at h
      exact List.mem_cons_of_mem _ (ih h)

/-- Helper: membership survives the surrounding-whitespace strip. -/
theorem mem_of_mem_pyStrip {l : List Char} {c : Char} (h : c ∈ pyStrip l) : c ∈ l := by
  unfold pyStrip at h
  rw [List.mem_reverse] at h
  have h2 := mem_of_mem_dropWhile h
  rw [List.mem_reverse] at h2
  exact mem_of_mem_dropWhile h2

/-- Helper: after the underscore substitution no character of the invalid
set remains. -/
theorem invalid_not_in_replaceInvalid {l : List Char} {c : Char}
    (h : c ∈ replaceInvalid l) : invalidFilenameChar c = false := by
  unfold replaceInvalid at h
  rcases List.mem_map.mp h with ⟨a, _, rfl⟩
  cases ha : invalidFilenameChar a
  · rw [if_neg (by simp [ha])]
    exact ha
  · rw [if_pos (by simp [ha])]
    decide

/-- C3 counterexample: the claim describes the first sanitization step as
stripping a LEADING bracketed tag, but the code removes bracket pairs
anywhere in the string: on "Mic [USB]" the code yields "Mic" while the
spec-worded pipeline yields "Mic [USB]". -/
theorem sanitize_strips_everywhere_counterexample :
    sanitize_filename "Mic [USB]" = "Mic" ∧
    sanitizeFilenameLeadingOnly "Mic [USB]" = "Mic [USB]" ∧
    sanitize_filename "Mic [USB]" ≠ sanitizeFilenameLeadingOnly "Mic [USB]" := by
  refine ⟨by decide, by decide, by decide⟩

/-- C3 (amended): `sanitize_filename` is pure and total, removes every
bracketed tag (with trailing whitespace) anywhere in the string — not only
a leading one — then replaces each character of the invalid set with an
underscore, then trims surrounding whitespace; its output never contains a
character of the invalid set, and "[Input] Mic (USB)" maps to
"Mic (USB)". -/
theorem sanitize_filename_correct :
    (∀ (s : String) (c : Char),
      c ∈ (sanitize_filename s).data → invalidFilenameChar c = false) ∧
    sanitize_filename "[Input] Mic (USB)" = "Mic (USB)" ∧
    sanitize_filename "Mic [USB]" = "Mic" := by
  refine ⟨?_, by decide, by decide⟩
  intro s c hc
  exact invalid_not_in_replaceInvalid (mem_of_mem_pyStrip hc)

/-- Witness for `sanitize_filename_correct` at a concrete input. -/
theorem sanitize_filename_correct_witness :
    invalidFilenameChar 'M' = false :=
  sanitize_filename_correct.1 "Mic" 'M' (by decide)

/-- Helper: terminal-emission counting distributes over concatenation. -/
theorem terminalEmissions_append (pid : Nat) (a b : List (Nat × ProcStatus)) :
    terminalEmissions pid (a ++ b) =
      terminalEmissions pid a + terminalEmissions pid b := by
  simp [terminalEmissions, List.filter_append]

/-- Helper: a poll result is terminal exactly when the process has exited. -/
theorem isTerminal_pollStatus (p : ProcView) :
    isTerminal (pollStatus p) = p.poll.isSome := by
  cases hp : p.poll with
  | none => simp [pollStatus, hp, isTerminal]
  | some c => by_cases hc : c = 0 <;> simp [pollStatus, hp, hc, isTerminal]

/-- Helper: terminal emissions of one monitor iteration over one record. -/
theorem terminalEmissions_singleton (p : ProcView) :
    terminalEmissions p.pid (monitorIteration [p]) =
      (if p.poll.isSome then 1 else 0) := by
  simp [terminalEmissions, monitorIteration, List.filter, isTerminal_pollStatus]
  cases hp : p.poll <;> simp [hp]

/-- C1 counterexample: an exited process is NOT reported exactly once —
two polling iterations over a process that exited with code zero produce
two `exited_ok` emissions, refuting "once terminal, no further
emissions". -/
theorem monitor_reemits_counterexample :
    terminalEmissions 7 (monitorRun [{ pid := 7, poll := some 0 }] 2) = 2 ∧
    terminalEmissions 7 (monitorRun [{ pid := 7, poll := some 0 }] 2) ≠ 1 := by
  decide

/-- C1 (amended): each polling iteration emits `running` for a live
process and a terminal status for an exited one (`exited_ok` exactly for
exit code zero, `exited_error` otherwise), never a terminal status for a
live process; but a terminal record is re-emitted on every subsequent
iteration — `n` iterations over an exited process yield `n` terminal
emissions, not one. -/
theorem monitor_emission_behavior (p : ProcView) (n : Nat) :
    (pollStatus p = ProcStatus.running ↔ p.poll = none) ∧
    (pollStatus p = ProcStatus.exited_ok ↔ p.poll = some 0) ∧
    (∀ code : Int, p.poll = some code → code ≠ 0 →
      pollStatus p = ProcStatus.exited_error) ∧
    terminalEmissions p.pid (monitorRun [p] n) =
      (if p.poll.isSome then n else 0) := by
  refine ⟨?_, ?_, ?_, ?_⟩
  · cases hp : p.poll with
    | none => simp [pollStatus, hp]
    | some c => by_cases hc : c = 0 <;> simp [pollStatus, hp, hc]
  · cases hp : p.poll with
    | none => simp [pollStatus, hp]
    | some c => by_cases hc : c = 0 <;> simp [pollStatus, hp, hc]
  · intro code hcode hne
    simp [pollStatus, hcode, hne]
  · induction n with
    | zero => cases hp : p.poll <;> simp [monitorRun, terminalEmissions, hp]
    | succ n ih =>
      rw [monitorRun, terminalEmissions_append, ih, terminalEmissions_singleton]
      cases hp : p.poll with
      | none => simp [hp]
      | some c => simp [hp]; omega

/-- Witness for `monitor_emission_behavior` at a concrete exited record. -/
theorem monitor_emission_behavior_witness :
    pollStatus { pid := 7, poll := some 2 } = ProcStatus.exited_error ∧
    terminalEmissions 7 (monitorRun [{ pid := 7, poll := some 2 }] 3) = 3 := by
  refine ⟨(monitor_emission_behavior { pid := 7, poll := some 2 } 3).2.2.1 2 rfl
    (by decide), ?_⟩
  have h := (monitor_emission_behavior { pid := 7, poll := some 2 } 3).2.2.2
  simpa using h

/-- Helper: record count produced by one launch loop. -/
theorem launchLoop_length (ts : List CaptureTask) (acc : List ProcessRecord) :
    (launchLoop ts acc).length =
      acc.length + (ts.filter (fun t => !t.launchFails)).length := by
  induction ts generalizing acc with
  | nil => simp [launchLoop]
  | cons t ts ih =>
    simp only [launchLoop]
    cases hf : t.launchFails
    · rw [if_neg (by simp [hf]), ih]
      simp [List.filter_cons, hf]
      omega
    · rw [if_pos (by simp [hf]), ih]
      simp [List.filter_cons, hf]

/-- Helper: a list is empty exactly when its length is zero. -/
theorem isEmpty_iff_length_zero {α : Type} (l : List α) :
    l.isEmpty = true ↔ l.length = 0 := by
  cases l <;> simp

/-- C8: after `start()` the number of process records equals the number of
tasks whose launch did not fail (a single failing task never aborts the
remaining launches), and the GUI reports overall start failure exactly when
zero tasks launched successfully. -/
theorem start_counts (r : RecorderTasks) :
    (Recorder.start r).length =
      ((r.screen_tasks ++ r.webcam_tasks ++ r.audio_tasks).filter
        (fun t => !t.launchFails)).length ∧
    (reportsStartFailure (Recorder.start r) = true ↔
      ((r.screen_tasks ++ r.webcam_tasks ++ r.audio_tasks).filter
        (fun t => !t.launchFails)).length = 0) := by
  have hlen : (Recorder.start r).length =
      ((r.screen_tasks ++ r.webcam_tasks ++ r.audio_tasks).filter
        (fun t => !t.launchFails)).length := by
    rw [Recorder.start, launchLoop_length, launchLoop_length, launchLoop_length]
    simp [List.filter_append]
    omega
  refine ⟨hlen, ?_⟩
  rw [reportsStartFailure, isEmpty_iff_length_zero, hlen]

/-- Witness for `start_counts`: a session where the only task fails to
launch is reported as a failed start. -/
theorem start_counts_witness :
    reportsStartFailure (Recorder.start
      { screen_tasks := [{ name := "Screen 0", launchFails := true }],
        webcam_tasks := [], audio_tasks := [] }) = true :=
  (start_counts
    { screen_tasks := [{ name := "Screen 0", launchFails := true }],
      webcam_tasks := [], audio_tasks := [] }).2.mpr (by decide)

/-- Helper: warning counting distributes over concatenation. -/
theorem countWarning_append (w : ResourceWarning) (a b : List ResourceWarning) :
    countWarning w (a ++ b) = countWarning w a + countWarning w b := by
  simp [countWarning, List.filter_append]

/-- Helper: the RAM check never emits a disk warning. -/
theorem disk_count_guardStepRam (st : GuardState) (s : ResourceSample) :
    countWarning ResourceWarning.lowDisk (guardStepRam st s).2 = 0 := by
  unfold guardStepRam
  by_cases h1 : st.ramWarningSent <;> by_cases h2 : ramBreach s <;>
    simp [h1, h2, countWarning, List.filter]

/-- Helper: the disk check never emits a RAM warning. -/
theorem ram_count_guardStepDisk (st : GuardState) (s : ResourceSample) :
    countWarning ResourceWarning.lowRam (guardStepDisk st s).2 = 0 := by
  unfold guardStepDisk
  by_cases h1 : st.diskWarningSent <;> by_cases h2 : diskBreach s <;>
    simp [h1, h2, countWarning, List.filter]

/-- Helper: disk warnings emitted by one disk check. -/
theorem disk_count_guardStepDisk (st : GuardState) (s : ResourceSample) :
    countWarning ResourceWarning.lowDisk (guardStepDisk st s).2 =
      (if st.diskWarningSent then 0 else if diskBreach s then 1 else 0) := by
  unfold guardStepDisk
  by_cases h1 : st.diskWarningSent <;> by_cases h2 : diskBreach s <;>
    simp [h1, h2, countWarning, List.filter]

/-- Helper: RAM warnings emitted by one RAM check. -/
theorem ram_count_guardStepRam (st : GuardState) (s : ResourceSample) :
    countWarning ResourceWarning.lowRam (guardStepRam st s).2 =
      (if st.ramWarningSent then 0 else if ramBreach s then 1 else 0) := by
  unfold guardStepRam
  by_cases h1 : st.ramWarningSent <;> by_cases h2 : ramBreach s <;>
    simp [h1, h2, countWarning, List.filter]

/-- Helper: the RAM check leaves the disk latch unchanged. -/
theorem diskFlag_guardStepRam (st : GuardState) (s : ResourceSample) :
    (guardStepRam st s).1.diskWarningSent = st.diskWarningSent := by
  unfold guardStepRam
  by_cases h1 : st.ramWarningSent <;> by_cases h2 : ramBreach s <;> simp [h1, h2]

/-- Helper: the disk check leaves the RAM latch unchanged. -/
theorem ramFlag_guardStepDisk (st : GuardState) (s : ResourceSample) :
    (guardStepDisk st s).1.ramWarningSent = st.ramWarningSent := by
  unfold guardStepDisk
  by_cases h1 : st.diskWarningSent <;> by_cases h2 : diskBreach s <;> simp [h1, h2]

/-- Helper: the disk latch after one disk check. -/
theorem diskFlag_guardStepDisk (st : GuardState) (s : ResourceSample) :
    (guardStepDisk st s).1.diskWarningSent = (st.diskWarningSent || diskBreach s) := by
  unfold guardStepDisk
  by_cases h1 : st.diskWarningSent <;> by_cases h2 : diskBreach s <;> simp [h1, h2]

/-- Helper: the RAM latch after one RAM check. -/
theorem ramFlag_guardStepRam (st : GuardState) (s : ResourceSample) :
    (guardStepRam st s).1.ramWarningSent = (st.ramWarningSent || ramBreach s) := by
  unfold guardStepRam
  by_cases h1 : st.ramWarningSent <;> by_cases h2 : ramBreach s <;> simp [h1, h2]

/-- Helper: total disk warnings over a run of the guard loop. -/
theorem guardRun_disk_count (samples : List ResourceSample) (st : GuardState) :
    countWarning ResourceWarning.lowDisk (guardRun st samples) =
      (if st.diskWarningSent then 0 else
        if samples.any diskBreach then 1 else 0) := by
  induction samples generalizing st with
  | nil => by_cases h : st.diskWarningSent <;> simp [guardRun, countWarning, h]
  | cons s rest ih =>
    simp only [guardRun, guardStep, countWarning_append]
    rw [ih, disk_count_guardStepDisk, disk_count_guardStepRam,
      diskFlag_guardStepRam, diskFlag_guardStepDisk]
    by_cases h1 : st.diskWarningSent <;> by_cases h2 : diskBreach s <;>
      simp [h1, h2, List.any_cons]

/-- Helper: total RAM warnings over a run of the guard loop. -/
theorem guardRun_ram_count (samples : List ResourceSample) (st : GuardState) :
    countWarning ResourceWarning.lowRam (guardRun st samples) =
      (if st.ramWarningSent then 0 else
        if samples.any ramBreach then 1 else 0) := by
  induction samples generalizing st with
  | nil => by_cases h : st.ramWarningSent <;> simp [guardRun, countWarning, h]
  | cons s rest ih =>
    simp only [guardRun, guardStep, countWarning_append]
    rw [ih, ram_count_guardStepRam, ram_count_guardStepDisk,
      ramFlag_guardStepRam, ramFlag_guardStepDisk]
    by_cases h1 : st.ramWarningSent <;> by_cases h2 : ramBreach s <;>
      simp [h1, h2, List.any_cons]

/-- C7: over any guard lifetime and any trace of polled samples, exactly
one disk warning is emitted when some sample breaches the 1 GiB disk
threshold and none otherwise, and likewise for the 0.5 GiB memory
threshold — so repeated breaches of the same resource never re-fire. -/
theorem guard_one_warning_per_kind (st : GuardState) (samples : List ResourceSample) :
    countWarning ResourceWarning.lowDisk (guardRun st samples) =
      (if st.diskWarningSent then 0 else
        if samples.any diskBreach then 1 else 0) ∧
    countWarning ResourceWarning.lowRam (guardRun st samples) =
      (if st.ramWarningSent then 0 else
        if samples.any ramBreach then 1 else 0) :=
  ⟨guardRun_disk_count samples st, guardRun_ram_count samples st⟩

/-- Helper: the reader loop forwards every decoded line of a prefix of
good reads, and a raised exception merely ends the loop. -/
theorem logReaderRun_good_head (pre : List ReadEvent)
    (h : ∀ e ∈ pre, isGoodEvent e = true) (tail : List ReadEvent) :
    logReaderRun (pre ++ ReadEvent.readError :: tail) = pre.filterMap eventLine := by
  induction pre with
  | nil => simp [logReaderRun, readOnce]
  | cons e es ih =>
    have he := h e (List.mem_cons_self e es)
    cases e with
    | readError => simp [isGoodEvent] at he
    | chunk bs =>
      simp only [isGoodEvent, Bool.not_eq_true'] at he
      simp [List.cons_append, logReaderRun, readOnce, he, eventLine,
        List.filterMap_cons, ih (fun e he' => h e (List.mem_cons_of_mem _ he'))]

/-- C4 counterexample: the claim states invalid byte sequences are
tolerated by SUBSTITUTION; the code's errors policy is "ignore", which
deletes them: on the bytes 0x41 0xFF 0x42 the code decodes "AB" while
substitution decoding yields "A", U+FFFD, "B". -/
theorem log_decode_substitution_counterexample :
    utf8DecodeIgnore [65, 255, 66] = ['A', 'B'] ∧
    utf8DecodeReplace [65, 255, 66] = ['A', Char.ofNat 0xFFFD, 'B'] ∧
    utf8DecodeIgnore [65, 255, 66] ≠ utf8DecodeReplace [65, 255, 66] := by
  refine ⟨by decide, by decide, by decide⟩

/-- C4 (amended): the reader decodes bytes tolerating invalid sequences by
deletion (the "ignore" policy) rather than failing, forwards each complete
decoded line to the sink as it arrives, and an I/O or decoding error is
never propagated past the reader — it only ends that reader silently, so
events after the error contribute nothing. -/
theorem log_reader_forwards (pre post : List ReadEvent)
    (h : ∀ e ∈ pre, isGoodEvent e = true) :
    utf8DecodeIgnore [65, 255, 66] = ['A', 'B'] ∧
    logReaderRun (pre ++ ReadEvent.readError :: post) = pre.filterMap eventLine ∧
    logReaderRun (pre ++ ReadEvent.readError :: post) =
      logReaderRun (pre ++ [ReadEvent.readError]) := by
  refine ⟨by decide, logReaderRun_good_head pre h post, ?_⟩
  rw [logReaderRun_good_head pre h post, logReaderRun_good_head pre h []]

/-- Witness for `log_reader_forwards` at a concrete stream trace. -/
theorem log_reader_forwards_witness :
    logReaderRun ([ReadEvent.chunk [72, 105, 10]] ++
        ReadEvent.readError :: [ReadEvent.chunk [66]]) =
      [ReadEvent.chunk [72, 105, 10]].filterMap eventLine :=
  (log_reader_forwards [ReadEvent.chunk [72, 105, 10]] [ReadEvent.chunk [66]]
    (by decide)).2.1

end MultiRecorder
